import Mathlib

/-!
# Verification of the xetrade market-data core

Shallow embedding, in Lean 4, of the algorithmic core of the
`blockhouse-arbitrage` repository:

* `src/xetrade/utils/symbol_mapper.py` — universal symbol normalization
  (`UniversalSymbolMapper`);
* `src/xetrade/models.py` — `Pair`, `Quote`, `Level`, `OrderBook`, `sort_l2`;
* `src/xetrade/services/price_impact.py` — `walk_book`;
* `src/xetrade/services/aggregator.py` — `gather_quotes`, `select_best`,
  `best_across_venues`.

Modelling conventions:

* Python `float` prices/quantities/confidences are modelled as exact
  rationals `ℚ`; the IEEE value `float("nan")`, used by the code as an
  in-band sentinel, is modelled by `none` in `PyFloat := Option ℚ`
  (`some x` is an ordinary numeric float).
* Python strings are modelled as `String` / `List Char`; the repository
  only manipulates ASCII symbol strings, so `upper`, `strip`, `replace`
  are reimplemented character-wise with Python semantics.
* Python `dict` literals are modelled as association lists with a
  first-match lookup (`dictGet`); the dictionaries of the source have no
  duplicated key with conflicting value, so first-match equals Python's
  last-write-wins semantics.
* Exceptions (`ValueError`) are modelled with `Except String` / `Option`.
-/

namespace Xetrade

/-! ## Python-style string primitives (character-wise, ASCII) -/

/-- Python `str.upper()` restricted to ASCII, character-wise. -/
def pyUpperChar (c : Char) : Char :=
  if 'a' ≤ c ∧ c ≤ 'z' then Char.ofNat (c.toNat - 32) else c

/-- Python whitespace recognised by `str.strip()`. -/
def isPySpace (c : Char) : Bool :=
  c = ' ' ∨ c = '\t' ∨ c = '\n' ∨ c = '\r' ∨ c = '\x0b' ∨ c = '\x0c'

/-- Python `str.strip()` on a character list. -/
def pyStripChars (cs : List Char) : List Char :=
  ((cs.dropWhile isPySpace).reverse.dropWhile isPySpace).reverse

/-- One step of Python `str.replace(old, new)`: scan left to right,
replacing non-overlapping occurrences.  Structural recursion on a fuel
argument (the fuel is always at least the length of the string). -/
def replaceSubAux (old new : List Char) : Nat → List Char → List Char
  | _, [] => []
  | 0, s => s
  | fuel + 1, c :: cs =>
    if old.isPrefixOf (c :: cs) ∧ old ≠ [] then
      new ++ replaceSubAux old new fuel (cs.drop (old.length - 1))
    else
      c :: replaceSubAux old new fuel cs

/-- Python `str.replace(old, new)` on character lists (for non-empty
`old`, which is the only way the repository calls it). -/
def replaceSub (old new s : List Char) : List Char :=
  replaceSubAux old new s.length s

/-- Python `s.replace(old, new)` on `String`s. -/
def pyReplace (s old new : String) : String :=
  String.mk (replaceSub old.data new.data s.data)

/-- Python `s.upper().strip()` composition used by the mapper. -/
def pyUpperStrip (s : String) : String :=
  String.mk (pyStripChars (s.data.map pyUpperChar))

/-- Python `re.sub(r'-+', '-', s)`: collapse each run of dashes to one dash. -/
def squashDashes (cs : List Char) : List Char :=
  cs.foldr (fun c acc => if c = '-' ∧ acc.head? = some '-' then acc else c :: acc) []

/-- Python `s.strip('-')`. -/
def stripDashes (cs : List Char) : List Char :=
  ((cs.dropWhile (fun c => c = '-')).reverse.dropWhile (fun c => c = '-')).reverse

/-- Python `s.split('-')`: always returns at least one (possibly empty) part. -/
def splitDash (cs : List Char) : List (List Char) :=
  cs.foldr
    (fun c acc =>
      match acc with
      | [] => [[c]]
      | h :: t => if c = '-' then [] :: h :: t else (c :: h) :: t)
    [[]]

/-- Python `s.endswith(suffix)`. -/
def pyEndsWith (s suffix : String) : Bool :=
  suffix.data.isSuffixOf s.data

/-- Numeric value of a digit string (`int(...)` on the match of `\d+`). -/
def natOfDigits (ds : List Char) : Nat :=
  ds.foldl (fun n c => n * 10 + (c.toNat - 48)) 0

/-- First-match association-list lookup; models Python `dict.get` /
`in` for the duplicate-free dictionaries of the source. -/
def dictGet {α : Type} : List (String × α) → String → Option α
  | [], _ => none
  | (k, v) :: rest, key => if key = k then some v else dictGet rest key

/-- Python truthiness of an `Optional[str]` (`None` and `""` are falsy). -/
def truthyOptStr : Option String → Bool
  | none => false
  | some s => !s.isEmpty

/-! ## Symbol mapper (`src/xetrade/utils/symbol_mapper.py`) -/

/-- The `QuoteCurrencyType` enum of the mapper. -/
inductive QuoteCurrencyType where
  | USD | USDT | USDC | BUSD | DAI | EUR | GBP | BTC | ETH | OTHER
  deriving DecidableEq, Repr

/-- The `SymbolMapping` dataclass.  `metadata` is the Python dict
`str → Optional[str]` as an association list. -/
structure SymbolMapping where
  exchange_symbol : String
  universal_symbol : String
  base_asset : String
  quote_asset : String
  quote_type : QuoteCurrencyType
  confidence : ℚ
  metadata : List (String × Option String)
  deriving DecidableEq, Repr

/-- Table `self.separators`. -/
def separators : List String := ["-", "_", "/"]

/-- Table `self.asset_aliases`. -/
def asset_aliases : List (String × String) :=
  [("XBT", "BTC"), ("WBTC", "BTC"), ("BCC", "BCH"), ("BCHABC", "BCH"),
   ("BCHSV", "BSV"), ("BONK", "BONK"), ("SHIB", "SHIB"), ("DOGE", "DOGE"),
   ("PEPE", "PEPE"), ("WIF", "WIF")]

/-- Table `self.stablecoin_to_fiat`. -/
def stablecoin_to_fiat : List (String × String) :=
  [("USDT", "USD"), ("USDC", "USD"), ("BUSD", "USD"), ("DAI", "USD"),
   ("FDUSD", "USD"), ("TUSD", "USD"), ("PAX", "USD")]

/-- Table `self.known_quotes`: stablecoin keys then fiat then crypto. -/
def known_quotes : List String :=
  (stablecoin_to_fiat.map Prod.fst) ++
    ["USD", "EUR", "GBP", "JPY", "KRW", "CNY", "BTC", "ETH", "BNB", "SOL", "ADA"]

/-- Table `self.contract_flags`. -/
def contract_flags : List String := ["PERP", "SWAP", "FUT", "QUARTERLY", "SPOT"]

/-- Table `self.exchange_noise`. -/
def exchange_noise : List String :=
  ["SPOT:", "FUTURES:", ".P", ":USDT", "^SPOT:", "^FUTURES:"]

/-- Table `self.quote_mappings`. -/
def quote_mappings : List (String × QuoteCurrencyType) :=
  [("USD", .USD), ("USDT", .USDT), ("USDC", .USDC), ("BUSD", .BUSD),
   ("DAI", .DAI), ("TUSD", .USD), ("PAX", .USD),
   ("EUR", .EUR), ("GBP", .GBP), ("JPY", .OTHER), ("KRW", .OTHER), ("CNY", .OTHER),
   ("BTC", .BTC), ("ETH", .ETH), ("BNB", .OTHER), ("SOL", .OTHER), ("ADA", .OTHER)]

/-- Table `self.asset_mappings`.  The Python dict literal repeats some keys
(`USDT`, `TUSD`, …) with identical values; each key is listed once. -/
def asset_mappings : List (String × String) :=
  [("XBT", "BTC"), ("BCC", "BCH"), ("BCHABC", "BCH"), ("BCHSV", "BSV"),
   ("USDT", "USDT"), ("USDC", "USDC"), ("BUSD", "BUSD"), ("DAI", "DAI"),
   ("DOGE", "DOGE"), ("SHIB", "SHIB"), ("BONK", "BONK"), ("PEPE", "PEPE"),
   ("WIF", "WIF"),
   ("UNI", "UNI"), ("AAVE", "AAVE"), ("COMP", "COMP"), ("MKR", "MKR"),
   ("CRV", "CRV"), ("SUSHI", "SUSHI"), ("YFI", "YFI"), ("SNX", "SNX"),
   ("BAL", "BAL"), ("REN", "REN"), ("ZRX", "ZRX"), ("BAT", "BAT"),
   ("LINK", "LINK"), ("LRC", "LRC"), ("MANA", "MANA"), ("ENJ", "ENJ"),
   ("SAND", "SAND"), ("AXS", "AXS"), ("CHZ", "CHZ"), ("HOT", "HOT"),
   ("VET", "VET"), ("VTHO", "VTHO"), ("ICX", "ICX"), ("ONG", "ONG"),
   ("ONT", "ONT"), ("QTUM", "QTUM"), ("XRP", "XRP"), ("XLM", "XLM"),
   ("ADA", "ADA"), ("DOT", "DOT"), ("MATIC", "MATIC"), ("AVAX", "AVAX"),
   ("ATOM", "ATOM"), ("NEAR", "NEAR"), ("FTM", "FTM"), ("ALGO", "ALGO"),
   ("AR", "AR"), ("FIL", "FIL"), ("ICP", "ICP"), ("APT", "APT"),
   ("SUI", "SUI"), ("SEI", "SEI"), ("TIA", "TIA"), ("INJ", "INJ"),
   ("OSMO", "OSMO"), ("JUP", "JUP"), ("PYTH", "PYTH"), ("WLD", "WLD"),
   ("STRK", "STRK"), ("BLUR", "BLUR"), ("OP", "OP"), ("ARB", "ARB"),
   ("MAGIC", "MAGIC"), ("IMX", "IMX"), ("STX", "STX"), ("CFX", "CFX"),
   ("FET", "FET"), ("AGIX", "AGIX"), ("OCEAN", "OCEAN"), ("RNDR", "RNDR"),
   ("THETA", "THETA"), ("TFUEL", "TFUEL"), ("HBAR", "HBAR"), ("HIVE", "HIVE"),
   ("HBD", "HBD"), ("STEEM", "STEEM"), ("SBD", "SBD"), ("BTS", "BTS"),
   ("EOS", "EOS"), ("TRX", "TRX"), ("BTT", "BTT"), ("WIN", "WIN"),
   ("APENFT", "APENFT"), ("NFT", "NFT"), ("JST", "JST"), ("SUN", "SUN"),
   ("USDD", "USDD"), ("TUSD", "TUSD"), ("PAX", "PAX"), ("GUSD", "GUSD"),
   ("FRAX", "FRAX"), ("LUSD", "LUSD"), ("SUSD", "SUSD"), ("MUSD", "MUSD"),
   ("RSV", "RSV"), ("USDK", "USDK"), ("USDN", "USDN"), ("USDJ", "USDJ"),
   ("USDP", "USDP"), ("FDUSD", "FDUSD")]

/-- Method `normalize_symbol`: uppercase + strip, remove venue noise, unify
separators to `-`, remove contract flags, collapse and trim dashes.
The `exchange` argument is accepted and ignored, as in the source. -/
def normalize_symbol (symbol : String) (exchange : String := "unknown") : String :=
  let s := pyUpperStrip symbol
  let s := exchange_noise.foldl (fun acc n => pyReplace acc n "") s
  let s := separators.foldl (fun acc sep => pyReplace acc sep "-") s
  let s := contract_flags.foldl
    (fun acc f => pyReplace (pyReplace acc ("-" ++ f) "") f "") s
  let s := String.mk (squashDashes s.data)
  String.mk (stripDashes s.data)

/-- Method `strip_multiplier`: the regex `^(\d+)([A-Z]+)$` matches exactly when
the token is a non-empty digit block followed by a non-empty block of
`A`–`Z`; digit and letter classes are disjoint, so the greedy split is
the `takeWhile isDigit` split. -/
def strip_multiplier (token : String) : String × Nat :=
  let ds := token.data.takeWhile Char.isDigit
  let ls := token.data.dropWhile Char.isDigit
  if ds ≠ [] ∧ ls ≠ [] ∧ ls.all (fun c => 'A' ≤ c ∧ c ≤ 'Z') then
    (String.mk ls, natOfDigits ds)
  else
    (token, 1)

/-- Python `sorted(self.known_quotes, key=len, reverse=True)`: Python's stable
descending sort by length, realised by Mathlib's (stable) insertion sort. -/
def known_quotes_by_len : List String :=
  known_quotes.insertionSort (fun a b => b.length ≤ a.length)

/-- Method `split_base_quote`: split at the dash when there are exactly two
parts, otherwise take the longest known-quote suffix; `none` models the
`ValueError` raised when no known quote matches. -/
def split_base_quote (symbol : String) : Option (String × String × Nat) :=
  let parts := (splitDash symbol.data).map String.mk
  let bq : Option (String × String) :=
    if h : parts.length = 2 then
      some (parts[0], parts[1])
    else
      match known_quotes_by_len.find? (fun q => pyEndsWith symbol q) with
      | some q => some (String.mk (symbol.data.take (symbol.data.length - q.length)), q)
      | none => none
  match bq with
  | none => none
  | some (base_part, quote) =>
    let (base, multiplier) := strip_multiplier base_part
    some (base, quote, multiplier)

/-- Method `resolve_assets`: alias resolution, then stablecoin → fiat grouping.
Returns `(canonical_base, canonical_quote, stablecoin_type)`. -/
def resolve_assets (base quote : String) : String × String × Option String :=
  let canonical_base := (dictGet asset_aliases base).getD base
  let quote_alias := (dictGet asset_aliases quote).getD quote
  match dictGet stablecoin_to_fiat quote_alias with
  | some fiat => (canonical_base, fiat, some quote_alias)
  | none => (canonical_base, quote_alias, none)

/-- Method `get_quote_type`. -/
def get_quote_type (quote : String) : QuoteCurrencyType :=
  (dictGet quote_mappings quote).getD QuoteCurrencyType.OTHER

/-- The confidence computation of `map_symbol` (source lines 391–414),
as a sum of the bonuses/penalty applied to the base score `0.5`. -/
def map_confidence (canonical_base canonical_quote : String)
    (quote_type : QuoteCurrencyType) (stablecoin_type : Option String) : ℚ :=
  1/2
    + (if canonical_base ≠ "" ∧ canonical_quote ≠ "" then 2/10 else 0)
    + (if (dictGet asset_mappings canonical_base).isSome then 1/10 else 0)
    + (if (dictGet asset_mappings canonical_quote).isSome then 1/10 else 0)
    + (if quote_type ≠ QuoteCurrencyType.OTHER then 1/10 else 0)
    + (if truthyOptStr stablecoin_type then 1/10 else 0)
    - (if canonical_base = "" ∨ canonical_quote = "" then 3/10 else 0)

/-- Method `map_symbol`: normalize, split, resolve, classify, score.  On a
split failure (`ValueError`) returns the low-confidence fallback mapping. -/
def map_symbol (exchange_symbol : String) (exchange : String := "unknown") :
    SymbolMapping :=
  let normalized_symbol := normalize_symbol exchange_symbol exchange
  match split_base_quote normalized_symbol with
  | none =>
    { exchange_symbol := exchange_symbol
      universal_symbol := exchange_symbol
      base_asset := exchange_symbol
      quote_asset := exchange_symbol
      quote_type := QuoteCurrencyType.OTHER
      confidence := 1/10
      metadata :=
        [("error", some ("Cannot infer quote currency from symbol: " ++
          normalized_symbol))] }
  | some (base, quote, _multiplier) =>
    let (canonical_base, rest) := resolve_assets base quote
    let (canonical_quote, stablecoin_type) := rest
    let quote_type := get_quote_type canonical_quote
    { exchange_symbol := exchange_symbol
      universal_symbol := canonical_base ++ "/" ++ canonical_quote
      base_asset := canonical_base
      quote_asset := canonical_quote
      quote_type := quote_type
      confidence := map_confidence canonical_base canonical_quote
        quote_type stablecoin_type
      metadata := [("stablecoin_type", stablecoin_type)] }

/-! ## Core domain types (`src/xetrade/models.py`) -/

/-- A Python `float` that may be the NaN sentinel: `none` is
`float("nan")`, `some x` an ordinary numeric value. -/
abbrev PyFloat := Option ℚ

/-- Python `float("nan")`. -/
def pyNaN : PyFloat := none

/-- The `Side` type literal. -/
inductive Side where
  | buy | sell
  deriving DecidableEq, Repr

/-- The `Pair` dataclass. -/
structure Pair where
  base : String
  quote : String
  deriving DecidableEq, Repr

/-- The quote suffixes tried by `Pair.parse` when no separator is found. -/
def pairFallbackQuotes : List String := ["USDT", "USD", "USDC", "BTC", "ETH", "EUR"]

/-- The first line of `Pair.parse`:
`s.strip().upper().replace("/", "-").replace("_", "-")`. -/
def pairNormalize (s : String) : String :=
  pyReplace (pyReplace (pyUpperStrip s) "/" "-") "_" "-"

/-- Method `Pair.parse`: strip/uppercase, unify `/` and `_` to `-`, split at the
first dash if any, otherwise match a known quote suffix (requiring a
non-empty base); the `ValueError` is the `Except.error` case. -/
def Pair.parse (s : String) : Except String Pair :=
  let t := pairNormalize s
  if t.data.contains '-' then
    let i := t.data.takeWhile (fun c => c ≠ '-')
    Except.ok ⟨String.mk i, String.mk (t.data.drop (i.length + 1))⟩
  else
    match pairFallbackQuotes.find?
      (fun q => pyEndsWith t q && decide (q.length < t.length)) with
    | some q => Except.ok ⟨String.mk (t.data.take (t.data.length - q.length)), q⟩
    | none => Except.error ("Cannot parse trading pair from " ++ t)

/-- The `Quote` dataclass (top-of-book). -/
structure Quote where
  bid : ℚ
  ask : ℚ
  ts_ms : ℤ
  deriving DecidableEq, Repr

/-- The `Level` dataclass (one order-book level). -/
structure Level where
  price : ℚ
  qty : ℚ
  deriving DecidableEq, Repr

/-- The `OrderBook` dataclass. -/
structure OrderBook where
  bids : List Level
  asks : List Level
  ts_ms : ℤ
  deriving DecidableEq, Repr

/-- Method `OrderBook.best_bid`: head price, or `float("nan")` when `bids` is empty. -/
def OrderBook.best_bid (book : OrderBook) : PyFloat :=
  match book.bids with
  | [] => pyNaN
  | lvl :: _ => some lvl.price

/-- Method `OrderBook.best_ask`: head price, or `float("nan")` when `asks` is empty. -/
def OrderBook.best_ask (book : OrderBook) : PyFloat :=
  match book.asks with
  | [] => pyNaN
  | lvl :: _ => some lvl.price

/-- Method `OrderBook.mid = (best_bid + best_ask) / 2`; IEEE NaN propagates
through `+` and `/ 2`, so the result is NaN iff either side is NaN. -/
def OrderBook.mid (book : OrderBook) : PyFloat :=
  match book.best_bid, book.best_ask with
  | some bb, some ba => some ((bb + ba) / 2)
  | _, _ => pyNaN

/-- Function `sort_l2`: re-sort bids descending and asks ascending by price.
Python's `sorted` is a stable sort; a stable sort for a given total
preorder is unique, so Mathlib's stable `insertionSort` computes the
same lists. -/
def sort_l2 (book : OrderBook) : OrderBook :=
  { bids := book.bids.insertionSort (fun x y => y.price ≤ x.price)
    asks := book.asks.insertionSort (fun x y => x.price ≤ y.price)
    ts_ms := book.ts_ms }

/-! ## Execution simulator (`src/xetrade/services/price_impact.py`) -/

/-- The `1e-12` epsilon of `walk_book` (exact value of the decimal). -/
def walkEps : ℚ := 1 / 10 ^ 12

/-- The level-walking loop of `walk_book`: returns the final
`(spent_quote, filled_base)` accumulators. -/
def walkLevels : List Level → ℚ → ℚ → ℚ → ℚ × ℚ
  | [], _, spent_q, filled_base => (spent_q, filled_base)
  | lvl :: rest, remaining_q, spent_q, filled_base =>
    let level_cap_q := lvl.price * lvl.qty
    let take_q := min remaining_q level_cap_q
    if take_q ≤ 0 then
      walkLevels rest remaining_q spent_q filled_base
    else
      let base_taken := take_q / lvl.price
      let spent_q := spent_q + take_q
      let filled_base := filled_base + base_taken
      let remaining_q := remaining_q - take_q
      if remaining_q ≤ walkEps then (spent_q, filled_base)
      else walkLevels rest remaining_q spent_q filled_base

/-- Expression `book.asks if side == "buy" else book.bids` — the side of the book
consumed by `walk_book`. -/
def sideLevels (book : OrderBook) (side : Side) : List Level :=
  match side with
  | .buy => book.asks
  | .sell => book.bids

/-- Function `walk_book`: `Except.error` models the `ValueError` raised on a
non-positive notional; the `(float("nan"), 0.0)` thin-book return value
is `(pyNaN, 0)`. -/
def walk_book (book : OrderBook) (side : Side) (trade_volume_quote : ℚ) :
    Except String (PyFloat × ℚ) :=
  if trade_volume_quote ≤ 0 then
    Except.error "trade_volume_quote must be > 0"
  else
    let levels := sideLevels book side
    let (spent_q, filled_base) := walkLevels levels trade_volume_quote 0 0
    if filled_base = 0 then
      Except.ok (pyNaN, 0)
    else
      Except.ok (some (spent_q / filled_base), filled_base)

/-! ## Quote aggregator (`src/xetrade/services/aggregator.py`) -/

/-- The `VenueQuote` dataclass. -/
structure VenueQuote where
  venue : String
  quote : Quote
  deriving DecidableEq, Repr

/-- The outcome of one venue's `get_best_bid_ask` call: the quote, or
the exception it raised (`VenueError` etc., carried as a message). -/
abbrev FetchOutcome := String × Except String Quote

/-- Function `gather_quotes`: one task per venue; each exception is caught and
the venue dropped.  `asyncio.as_completed` yields results in completion
order, which is not observable here; the embedding keeps submission
order (every claim below is order-insensitive). -/
def gather_quotes (outcomes : List FetchOutcome) : List VenueQuote :=
  outcomes.filterMap (fun o =>
    match o.2 with
    | Except.ok q => some ⟨o.1, q⟩
    | Except.error _ => none)

/-- Python `max(quotes, key=f)`: first element attaining the maximum
(the running maximum is replaced only on a strictly larger key). -/
def pyMaxBy (f : VenueQuote → ℚ) : List VenueQuote → Option VenueQuote
  | [] => none
  | x :: xs => some (xs.foldl (fun acc y => if f acc < f y then y else acc) x)

/-- Python `min(quotes, key=f)`: first element attaining the minimum. -/
def pyMinBy (f : VenueQuote → ℚ) : List VenueQuote → Option VenueQuote
  | [] => none
  | x :: xs => some (xs.foldl (fun acc y => if f y < f acc then y else acc) x)

/-- Function `select_best`: `(None, None)` on an empty list, otherwise the
highest-bid and lowest-ask venue quotes. -/
def select_best (quotes : List VenueQuote) : Option VenueQuote × Option VenueQuote :=
  if quotes = [] then (none, none)
  else (pyMaxBy (fun vq => vq.quote.bid) quotes,
        pyMinBy (fun vq => vq.quote.ask) quotes)

/-- One `{"venue": ..., "price": ..., "ts_ms": ...}` entry of the
`best_across_venues` result dict. -/
structure BestEntry where
  venue : String
  price : ℚ
  ts_ms : ℤ
  deriving DecidableEq, Repr

/-- The result dict of `best_across_venues`. -/
structure AggregationResult where
  best_bid : Option BestEntry
  best_ask : Option BestEntry
  mid : Option ℚ
  all : List VenueQuote
  deriving DecidableEq, Repr

/-- Function `best_across_venues`: gather, select, and assemble the result dict;
`mid` is computed only when both a best bid and a best ask exist. -/
def best_across_venues (outcomes : List FetchOutcome) : AggregationResult :=
  let vqs := gather_quotes outcomes
  match select_best vqs with
  | (some bid_vq, some ask_vq) =>
    { best_bid := some ⟨bid_vq.venue, bid_vq.quote.bid, bid_vq.quote.ts_ms⟩
      best_ask := some ⟨ask_vq.venue, ask_vq.quote.ask, ask_vq.quote.ts_ms⟩
      mid := some ((bid_vq.quote.bid + ask_vq.quote.ask) / 2)
      all := vqs }
  | _ =>
    { best_bid := none, best_ask := none, mid := none, all := vqs }

/-! ## Specification-side descriptions (for refinement statements) -/

/-- The maximum of `f` over a non-empty list (`none` on `[]`). -/
def maxKey (f : VenueQuote → ℚ) : List VenueQuote → Option ℚ
  | [] => none
  | x :: xs => some (xs.foldl (fun m y => max m (f y)) (f x))

/-- The minimum of `f` over a non-empty list (`none` on `[]`). -/
def minKey (f : VenueQuote → ℚ) : List VenueQuote → Option ℚ
  | [] => none
  | x :: xs => some (xs.foldl (fun m y => min m (f y)) (f x))

/-- Spec-side description of Python `max(·, key=f)`: the first element,
in list order, whose key attains the maximal key. -/
def firstArgmaxBy (f : VenueQuote → ℚ) : List VenueQuote → Option VenueQuote
  | [] => none
  | x :: xs =>
    (x :: xs).find? (fun y => decide (f y = xs.foldl (fun m z => max m (f z)) (f x)))

/-- Spec-side description of Python `min(·, key=f)`: the first element,
in list order, whose key attains the minimal key. -/
def firstArgminBy (f : VenueQuote → ℚ) : List VenueQuote → Option VenueQuote
  | [] => none
  | x :: xs =>
    (x :: xs).find? (fun y => decide (f y = xs.foldl (fun m z => min m (f z)) (f x)))

/-- The bid ordering (price descending) is total and transitive. -/
instance : IsTotal Level (fun x y => y.price ≤ x.price) :=
  ⟨fun a b => le_total b.price a.price⟩

instance : IsTrans Level (fun x y => y.price ≤ x.price) :=
  ⟨fun _ _ _ hab hbc => le_trans hbc hab⟩

/-- The ask ordering (price ascending) is total and transitive. -/
instance : IsTotal Level (fun x y => x.price ≤ y.price) :=
  ⟨fun a b => le_total a.price b.price⟩

instance : IsTrans Level (fun x y => x.price ≤ y.price) :=
  ⟨fun _ _ _ hab hbc => le_trans hab hbc⟩

/-! # Theorems -/

/-! ## Sorting (`sort_l2`) -/

theorem insertionSort_idem {r : Level → Level → Prop} [DecidableRel r]
    [IsTotal Level r] [IsTrans Level r] (l : List Level) :
    (l.insertionSort r).insertionSort r = l.insertionSort r :=
  List.Sorted.insertionSort_eq (List.sorted_insertionSort r l)

/-- C8: canonicalization is idempotent — re-sorting an already
canonicalized book (bids descending, asks ascending by price) changes
nothing, for every input ordering of levels. -/
theorem sort_l2_idempotent (book : OrderBook) :
    sort_l2 (sort_l2 book) = sort_l2 book := by
  unfold sort_l2
  simp only [OrderBook.mk.injEq]
  exact ⟨insertionSort_idem book.bids, insertionSort_idem book.asks, trivial⟩

/-- C10: canonicalization only reorders — `sort_l2` preserves the
timestamp and returns permutations (the same multisets) of the input
bid and ask levels. -/
theorem sort_l2_frame (book : OrderBook) :
    (sort_l2 book).ts_ms = book.ts_ms ∧
    (sort_l2 book).bids.Perm book.bids ∧
    (sort_l2 book).asks.Perm book.asks :=
  ⟨rfl, List.perm_insertionSort _ book.bids, List.perm_insertionSort _ book.asks⟩

/-! ## Empty-book signalling (`best_bid` / `best_ask` / `mid`) -/

/-- C3 counterexample: on a book whose bid side is empty, `best_bid`
returns the value `float("nan")` (modelled `pyNaN`) — the code does
return NaN rather than raising an `EmptyBookError`-style signal, so the
claim "never silently returns 0 or NaN" is false at this input. -/
theorem best_bid_empty_returns_nan :
    OrderBook.best_bid ⟨[], [⟨100, 1⟩], 0⟩ = pyNaN ∧
    OrderBook.mid ⟨[], [⟨100, 1⟩], 0⟩ = pyNaN := ⟨rfl, rfl⟩

/-- C3 amended: `best_bid`/`best_ask` return the NaN float — an in-band
sentinel that is distinct from every real price, but a returned value,
not a raised error — exactly when the respective side is empty, and a
real top-of-book price otherwise; `mid` is NaN unless both sides are
non-empty. -/
theorem best_bid_ask_nan_signal (book : OrderBook) :
    (book.best_bid = pyNaN ↔ book.bids = []) ∧
    (book.best_ask = pyNaN ↔ book.asks = []) ∧
    (book.mid = pyNaN ↔ (book.bids = [] ∨ book.asks = [])) ∧
    (∀ q : ℚ, pyNaN ≠ some q) := by
  refine ⟨?_, ?_, ?_, fun q h => Option.noConfusion h⟩ <;>
    cases hb : book.bids <;> cases ha : book.asks <;>
      simp [OrderBook.best_bid, OrderBook.best_ask, OrderBook.mid, pyNaN, hb, ha]

/-! ## Pair parsing (`Pair.parse`) -/

/-- C4 counterexample: `Pair.parse "-USDT"` succeeds and returns the
pair `("", "USDT")` with an empty base component — a silently-wrong
pair, not a typed parse error. -/
theorem parse_dash_usdt_empty_base :
    Pair.parse "-USDT" = Except.ok ⟨"", "USDT"⟩ ∧ ("" : String).length = 0 :=
  ⟨rfl, rfl⟩

/-- Helper: the levels of `List.takeWhile`/`dropWhile` on a
concatenation whose left part satisfies `p` and whose right part starts
with a failure of `p`. -/
theorem takeWhile_dropWhile_append (p : Char → Bool) :
    ∀ (ds ls : List Char), (∀ c ∈ ds, p c = true) →
      (∀ c ∈ ls.take 1, p c = false) →
      (ds ++ ls).takeWhile p = ds ∧ (ds ++ ls).dropWhile p = ls := by
  intro ds ls hds hls
  induction ds with
  | nil =>
    cases ls with
    | nil => exact ⟨rfl, rfl⟩
    | cons c t =>
      have hc : p c = false := hls c (by simp)
      simp [List.takeWhile, List.dropWhile, hc]
  | cons d ds ih =>
    have hd : p d = true := hds d (by simp)
    have ih' := ih (fun c hc => hds c (by simp [hc]))
    simp [List.takeWhile, List.dropWhile, hd, ih'.1, ih'.2]

/-- C4 amended: `Pair.parse` either fails with a typed error or returns
a pair, and whenever the normalized input contains no separator (so the
known-quote-suffix fallback is used) both components are non-empty; only
inputs that contain a separator can produce an empty component (for
example `"-USDT"` parses to base `""`). -/
theorem parse_components_nonempty (s : String) (p : Pair)
    (hno : (pairNormalize s).data.contains '-' = false)
    (h : Pair.parse s = Except.ok p) :
    p.base ≠ "" ∧ p.quote ≠ "" := by
  simp only [Pair.parse, hno, Bool.false_eq_true, if_false] at h
  cases hf : pairFallbackQuotes.find?
      (fun q => pyEndsWith (pairNormalize s) q &&
        decide (q.length < (pairNormalize s).length)) with
  | none => rw [hf] at h; exact absurd h (by simp)
  | some q =>
    rw [hf] at h
    have hpred := List.find?_some hf
    have hmem := List.mem_of_find?_eq_some hf
    simp only [Bool.and_eq_true, decide_eq_true_eq] at hpred
    obtain ⟨-, hlt⟩ := hpred
    have hqne : q ≠ "" := by
      revert hmem
      have : ∀ x ∈ pairFallbackQuotes, x ≠ "" := by decide
      exact fun hm => this q hm
    injection h with h
    subst h
    refine ⟨?_, hqne⟩
    intro hb
    have hdata : (pairNormalize s).data.take
        ((pairNormalize s).data.length - q.length) = [] :=
      congrArg String.data hb
    have hlen := congrArg List.length hdata
    rw [List.length_take] at hlen
    have hlt' : q.data.length < (pairNormalize s).data.length := hlt
    simp at hlen
    omega

/-- C4 witness: the amended statement at `"BTCUSDT"`, which has no
separator and parses via the suffix fallback to `("BTC", "USDT")`. -/
theorem parse_components_nonempty_witness :
    (pairNormalize "BTCUSDT").data.contains '-' = false ∧
    Pair.parse "BTCUSDT" = Except.ok ⟨"BTC", "USDT"⟩ ∧
    (Pair.mk "BTC" "USDT").base ≠ "" ∧ (Pair.mk "BTC" "USDT").quote ≠ "" :=
  ⟨by decide, rfl, parse_components_nonempty "BTCUSDT" ⟨"BTC", "USDT"⟩ (by decide) rfl⟩

/-! ## Multiplier stripping and stablecoin equivalence (`map_symbol`) -/

/-- C5 counterexample: mapping `"1000BONK-USD"` strips the multiplier
`1000` during splitting, but the returned mapping's metadata is exactly
`[("stablecoin_type", None)]` — it contains no `"multiplier"` key, so
the multiplier value is *not* recorded in metadata. -/
theorem multiplier_absent_from_metadata :
    split_base_quote (normalize_symbol "1000BONK-USD" "okx") =
      some ("BONK", "USD", 1000) ∧
    (map_symbol "1000BONK-USD" "okx").metadata = [("stablecoin_type", none)] ∧
    dictGet (map_symbol "1000BONK-USD" "okx").metadata "multiplier" = none :=
  ⟨rfl, rfl, rfl⟩

/-- C5 amended: for every token matching `^(\d+)([A-Z]+)$` (a non-empty
digit block followed by a non-empty upper-case block),
`strip_multiplier` strips the digits and returns their value, so the
base-asset identity is unaffected
(`normalize("1000BONK-USD", v).baseAsset = normalize("BONK-USD", v).baseAsset
 = "BONK"`); the multiplier value, however, is only computed internally
and is not recorded in the returned mapping's metadata. -/
theorem strip_multiplier_invariance (v : String) (ds ls : List Char)
    (hds : ds ≠ []) (hdsd : ∀ c ∈ ds, c.isDigit = true)
    (hls : ls ≠ []) (hlsu : ∀ c ∈ ls, 'A' ≤ c ∧ c ≤ 'Z') :
    strip_multiplier (String.mk (ds ++ ls)) = (String.mk ls, natOfDigits ds) ∧
    (map_symbol "1000BONK-USD" v).base_asset = "BONK" ∧
    (map_symbol "BONK-USD" v).base_asset = "BONK" ∧
    (map_symbol "1000BONK-USD" v).base_asset = (map_symbol "BONK-USD" v).base_asset ∧
    dictGet (map_symbol "1000BONK-USD" v).metadata "multiplier" = none := by
  refine ⟨?_, rfl, rfl, rfl, rfl⟩
  have hhead : ∀ c ∈ ls.take 1, c.isDigit = false := by
    intro c hc
    have hA : 'A' ≤ c := (hlsu c (List.mem_of_mem_take hc)).1
    have h9 : ¬(c ≤ '9') := fun hle => absurd (le_trans hA hle) (by decide)
    have hdig : c.isDigit = (decide ('0' ≤ c) && decide (c ≤ '9')) := rfl
    rw [hdig, decide_eq_false h9, Bool.and_false]
  obtain ⟨htake, hdrop⟩ := takeWhile_dropWhile_append Char.isDigit ds ls hdsd hhead
  unfold strip_multiplier
  rw [if_pos]
  · show (String.mk ((ds ++ ls).dropWhile Char.isDigit),
        natOfDigits ((ds ++ ls).takeWhile Char.isDigit)) =
      (String.mk ls, natOfDigits ds)
    rw [htake, hdrop]
  · constructor
    · show (String.mk (ds ++ ls)).data.takeWhile Char.isDigit ≠ []
      show (ds ++ ls).takeWhile Char.isDigit ≠ []
      rw [htake]; exact hds
    constructor
    · show (ds ++ ls).dropWhile Char.isDigit ≠ []
      rw [hdrop]; exact hls
    · show ((ds ++ ls).dropWhile Char.isDigit).all _ = true
      rw [hdrop, List.all_eq_true]
      intro c hc
      exact decide_eq_true (hlsu c hc)

/-- C5 witness: the amended statement at `v = "binance"` and the token
`"1000BONK"` decomposed as digits `1000` and letters `BONK`. -/
theorem strip_multiplier_invariance_witness :
    strip_multiplier "1000BONK" = ("BONK", 1000) ∧
    (map_symbol "1000BONK-USD" "binance").base_asset = "BONK" ∧
    (map_symbol "BONK-USD" "binance").base_asset = "BONK" ∧
    (map_symbol "1000BONK-USD" "binance").base_asset =
      (map_symbol "BONK-USD" "binance").base_asset ∧
    dictGet (map_symbol "1000BONK-USD" "binance").metadata "multiplier" = none :=
  strip_multiplier_invariance "binance" ['1', '0', '0', '0'] ['B', 'O', 'N', 'K']
    (by decide) (by decide) (by decide) (by decide)

/-- C1: for every known USD-pegged stablecoin ticker `Q` and every venue
id `v`, mapping `"BONK-" ++ Q` yields universal symbol `"BONK/USD"` with
the original ticker recorded as the stablecoin type in metadata, and
`"1000BONK-USD"` maps to the identical universal symbol `"BONK/USD"`. -/
theorem stablecoin_universal_equivalence (v q : String)
    (hq : q ∈ ["USDT", "USDC", "BUSD", "DAI", "FDUSD", "TUSD", "PAX"]) :
    (map_symbol ("BONK-" ++ q) v).universal_symbol = "BONK/USD" ∧
    (map_symbol ("BONK-" ++ q) v).metadata = [("stablecoin_type", some q)] ∧
    (map_symbol "1000BONK-USD" v).universal_symbol = "BONK/USD" ∧
    (map_symbol "1000BONK-USD" v).universal_symbol =
      (map_symbol ("BONK-" ++ q) v).universal_symbol := by
  fin_cases hq <;> exact ⟨rfl, rfl, rfl, rfl⟩

/-- C1 witness: the statement at `Q = "USDT"`, `v = "kucoin"`. -/
theorem stablecoin_universal_equivalence_witness :
    (map_symbol "BONK-USDT" "kucoin").universal_symbol = "BONK/USD" ∧
    (map_symbol "BONK-USDT" "kucoin").metadata = [("stablecoin_type", some "USDT")] ∧
    (map_symbol "1000BONK-USD" "kucoin").universal_symbol = "BONK/USD" ∧
    (map_symbol "1000BONK-USD" "kucoin").universal_symbol =
      (map_symbol "BONK-USDT" "kucoin").universal_symbol :=
  stablecoin_universal_equivalence "kucoin" "USDT" (by decide)

/-! ## Book walking (`walk_book`) -/

/-- C2 counterexample: a book whose ask side has total quote capacity
`100 × 9 = 900 < 1000` still yields a numeric average price for a buy of
notional `1000`: `walk_book` returns the partial fill
`(averagePrice 100, filledBase 9)`, not the `(NaN, 0)` insufficient-
liquidity sentinel. -/
theorem walk_book_partial_fill_returns_price :
    walk_book ⟨[], [⟨100, 9⟩], 0⟩ Side.buy 1000 = Except.ok (some 100, 9) ∧
    (100 : ℚ) * 9 < 1000 ∧ 0 < (100 : ℚ) * 9 ∧
    (some (100 : ℚ) : PyFloat) ≠ pyNaN := by
  refine ⟨?_, by norm_num, by norm_num, by simp [pyNaN]⟩
  simp [walk_book, sideLevels, walkLevels, walkEps]
  norm_num

/-- Helper: the walk never decreases the filled-base accumulator when
every level price is positive. -/
theorem walkLevels_filled_le (levels : List Level) :
    ∀ rem spent fb, (∀ l ∈ levels, 0 < l.price) →
      fb ≤ (walkLevels levels rem spent fb).2 := by
  induction levels with
  | nil => intro rem spent fb _; exact le_refl fb
  | cons l rest ih =>
    intro rem spent fb hpos
    have hl : 0 < l.price := hpos l (List.mem_cons_self l rest)
    have hrest : ∀ x ∈ rest, 0 < x.price :=
      fun x hx => hpos x (List.mem_cons_of_mem l hx)
    simp only [walkLevels]
    split_ifs with h1 h2
    · exact ih rem spent fb hrest
    · have htake : 0 < min rem (l.price * l.qty) := not_le.mp h1
      have hbase : 0 < min rem (l.price * l.qty) / l.price := div_pos htake hl
      simp only []
      linarith
    · have htake : 0 < min rem (l.price * l.qty) := not_le.mp h1
      have hbase : 0 < min rem (l.price * l.qty) / l.price := div_pos htake hl
      calc fb ≤ fb + min rem (l.price * l.qty) / l.price := by linarith
        _ ≤ _ := ih _ _ _ hrest

/-- Helper: with a positive first level and positive remaining notional,
the walk fills a strictly positive base quantity. -/
theorem walkLevels_filled_pos (l : Level) (rest : List Level) (rem spent : ℚ)
    (hp : 0 < l.price) (hq : 0 < l.qty)
    (hrest : ∀ x ∈ rest, 0 < x.price) (hrem : 0 < rem) :
    0 < (walkLevels (l :: rest) rem spent 0).2 := by
  have hcap : 0 < l.price * l.qty := mul_pos hp hq
  have htake : 0 < min rem (l.price * l.qty) := lt_min hrem hcap
  have hbase : 0 < min rem (l.price * l.qty) / l.price := div_pos htake hp
  simp only [walkLevels]
  rw [if_neg (not_le.mpr htake)]
  split_ifs with hstop
  · simpa using hbase
  · calc (0 : ℚ) < 0 + min rem (l.price * l.qty) / l.price := by linarith
      _ ≤ _ := walkLevels_filled_le rest _ _ _ hrest

/-- C2 amended: `walk_book` returns the insufficient-liquidity sentinel
`(NaN, 0)` only when the walk fills nothing at all; whenever the
selected side has at least one level with positive price and quantity
(all prices positive) and the requested notional is positive, it returns
a numeric average price over a strictly positive partial fill — **even
when the side's total quote capacity is smaller than the requested
notional**, as in the $900-capacity/$1000-notional counterexample. -/
theorem walk_book_partial_fill (book : OrderBook) (side : Side) (vol : ℚ)
    (hvol : 0 < vol)
    (hpos : ∀ l ∈ sideLevels book side, 0 < l.price ∧ 0 < l.qty)
    (hne : sideLevels book side ≠ []) :
    ∃ avg fb : ℚ, walk_book book side vol = Except.ok (some avg, fb) ∧ 0 < fb := by
  obtain ⟨l, rest, hl⟩ : ∃ l rest, sideLevels book side = l :: rest := by
    cases h : sideLevels book side with
    | nil => exact absurd h hne
    | cons a b => exact ⟨a, b, rfl⟩
  have hfb : 0 < (walkLevels (sideLevels book side) vol 0 0).2 := by
    rw [hl]
    refine walkLevels_filled_pos l rest vol 0 (hpos l ?_).1 (hpos l ?_).2
      (fun x hx => (hpos x ?_).1) hvol
    · rw [hl]; exact List.mem_cons_self l rest
    · rw [hl]; exact List.mem_cons_self l rest
    · rw [hl]; exact List.mem_cons_of_mem l hx
  rcases hw : walkLevels (sideLevels book side) vol 0 0 with ⟨s, f⟩
  have hf : 0 < f := by rw [hw] at hfb; exact hfb
  refine ⟨s / f, f, ?_, hf⟩
  simp only [walk_book, hw]
  rw [if_neg (not_le.mpr hvol), if_neg (ne_of_gt hf)]

/-- C2 witness: the amended statement at the counterexample book itself —
asks capacity `900`, requested notional `1000`. -/
theorem walk_book_partial_fill_witness :
    ∃ avg fb : ℚ,
      walk_book ⟨[], [⟨100, 9⟩], 0⟩ Side.buy 1000 = Except.ok (some avg, fb) ∧
      0 < fb :=
  walk_book_partial_fill ⟨[], [⟨100, 9⟩], 0⟩ Side.buy 1000 (by norm_num)
    (by intro l hl; simp [sideLevels] at hl; rw [hl]; constructor <;> norm_num)
    (by simp [sideLevels])

/-! ## Confidence bounds (`map_symbol`) -/

/-- Helper: a successful `dictGet` only returns values present in the
association list. -/
theorem dictGet_forall {α : Type} (P : α → Prop) :
    ∀ (l : List (String × α)) (k : String) (v : α),
      (∀ p ∈ l, P p.2) → dictGet l k = some v → P v := by
  intro l
  induction l with
  | nil => intro k v _ h; simp [dictGet] at h
  | cons p rest ih =>
    intro k v hall h
    obtain ⟨pk, pv⟩ := p
    by_cases hk : k = pk
    · simp only [dictGet, if_pos hk] at h
      exact Option.some.inj h ▸ hall (pk, pv) (List.mem_cons_self _ _)
    · simp only [dictGet, if_neg hk] at h
      exact ih k v (fun x hx => hall x (List.mem_cons_of_mem _ hx)) h

/-- Helper: whenever `resolve_assets` reports a stablecoin type, the
canonical quote is the fiat tag `"USD"` (every value of
`stablecoin_to_fiat` is `"USD"`). -/
theorem resolve_assets_stable_usd (b q : String)
    (h : truthyOptStr (resolve_assets b q).2.2 = true) :
    (resolve_assets b q).2.1 = "USD" := by
  simp only [resolve_assets] at h ⊢
  cases hd : dictGet stablecoin_to_fiat ((dictGet asset_aliases q).getD q) with
  | none => rw [hd] at h; simp [truthyOptStr] at h
  | some fiat =>
    exact dictGet_forall (fun v => v = "USD") stablecoin_to_fiat _ fiat
      (by decide) hd

/-- Helper: the confidence formula stays in `[0, 1]` given that the
quote-known bonus and the stablecoin bonus cannot both fire (when a
stablecoin normalization applied, the quote is `"USD"`, which is not an
`asset_mappings` key). -/
theorem map_confidence_bounds (cb cq : String) (qt : QuoteCurrencyType)
    (st : Option String)
    (h : ¬((dictGet asset_mappings cq).isSome = true ∧ truthyOptStr st = true)) :
    0 ≤ map_confidence cb cq qt st ∧ map_confidence cb cq qt st ≤ 1 := by
  unfold map_confidence
  split_ifs <;>
    first
      | (exfalso; apply h; constructor <;> assumption)
      | (constructor <;> norm_num)

/-- C6: for every input string and venue id, the confidence of the
returned mapping lies in `[0, 1]`: the base score `0.5` plus the parse
(+0.2), known-base (+0.1), known-quote (+0.1), known-quote-class (+0.1)
and stablecoin (+0.1) bonuses minus the unresolved-token penalty (−0.3)
never leaves the unit interval (nor does the `0.1` of the unparseable
fallback), because the known-quote and stablecoin bonuses are mutually
exclusive. -/
theorem map_symbol_confidence_in_unit_interval (s v : String) :
    0 ≤ (map_symbol s v).confidence ∧ (map_symbol s v).confidence ≤ 1 := by
  cases hs : split_base_quote (normalize_symbol s v) with
  | none =>
    simp only [map_symbol, hs]
    norm_num
  | some t =>
    obtain ⟨b, q, m⟩ := t
    rcases hr : resolve_assets b q with ⟨cb, cq, st⟩
    simp only [map_symbol, hs, hr]
    apply map_confidence_bounds
    rintro ⟨hq3, hst⟩
    have husd : cq = "USD" := by
      have := resolve_assets_stable_usd b q (by rw [hr]; exact hst)
      rw [hr] at this
      exact this
    rw [husd] at hq3
    exact absurd hq3 (by decide)

/-! ## Aggregation failure tolerance (`gather_quotes` / `best_across_venues`) -/

/-- Helper: the gathered quotes are exactly the successful fetches, so
their number is the number of venues whose fetch did not raise. -/
theorem gather_quotes_length (outcomes : List FetchOutcome) :
    (gather_quotes outcomes).length = outcomes.countP (fun o => o.2.isOk) := by
  induction outcomes with
  | nil => rfl
  | cons o rest ih =>
    obtain ⟨n, r⟩ := o
    cases r with
    | ok q =>
      have hg : gather_quotes ((n, Except.ok q) :: rest) =
          VenueQuote.mk n q :: gather_quotes rest := rfl
      rw [hg, List.length_cons, ih, List.countP_cons]
      simp [Except.isOk, Except.toBool]
    | error e =>
      have hg : gather_quotes ((n, Except.error e) :: rest) =
          gather_quotes rest := rfl
      rw [hg, ih, List.countP_cons]
      simp [Except.isOk, Except.toBool]

/-- Helper: every successful venue fetch contributes its quote to the
gathered list. -/
theorem gather_quotes_mem (outcomes : List FetchOutcome) (n : String) (q : Quote)
    (h : (n, Except.ok q) ∈ outcomes) :
    VenueQuote.mk n q ∈ gather_quotes outcomes :=
  List.mem_filterMap.mpr ⟨(n, Except.ok q), h, rfl⟩

/-- Helper: the `all` field of the aggregation result is always the
gathered (successful) quotes, in both branches of `best_across_venues`. -/
theorem best_across_venues_all (outcomes : List FetchOutcome) :
    (best_across_venues outcomes).all = gather_quotes outcomes := by
  unfold best_across_venues
  rcases h : select_best (gather_quotes outcomes) with ⟨b, a⟩
  cases b <;> cases a <;> simp [h]

/-- C7: a raising venue is caught and dropped while the aggregation
still returns a result built from the remaining venues: with three
venues of which exactly one raises (two fetches are `ok`), the result's
`all` list has length 2, and every successful venue's quote is in it —
the single failure never fails the whole aggregation. -/
theorem single_venue_failure_tolerated (outcomes : List FetchOutcome)
    (hlen : outcomes.length = 3)
    (hok : outcomes.countP (fun o => o.2.isOk) = 2) :
    (best_across_venues outcomes).all.length = 2 ∧
    ∀ n q, (n, Except.ok q) ∈ outcomes →
      VenueQuote.mk n q ∈ (best_across_venues outcomes).all := by
  constructor
  · rw [best_across_venues_all, gather_quotes_length, hok]
  · intro n q h
    rw [best_across_venues_all]
    exact gather_quotes_mem outcomes n q h

/-- C7 witness: three concrete venues, the middle one raising
`VenueError`; the aggregation keeps the other two. -/
theorem single_venue_failure_tolerated_witness :
    (best_across_venues
        [("binance", Except.ok ⟨100, 101, 1⟩),
         ("okx", Except.error "VenueError"),
         ("kucoin", Except.ok ⟨99, 102, 3⟩)]).all.length = 2 ∧
    ∀ n q, (n, Except.ok q) ∈
        [("binance", Except.ok ⟨100, 101, 1⟩),
         ("okx", Except.error "VenueError"),
         ("kucoin", Except.ok (⟨99, 102, 3⟩ : Quote))] →
      VenueQuote.mk n q ∈ (best_across_venues
        [("binance", Except.ok ⟨100, 101, 1⟩),
         ("okx", Except.error "VenueError"),
         ("kucoin", Except.ok ⟨99, 102, 3⟩)]).all :=
  single_venue_failure_tolerated _ rfl rfl

/-! ## Best-quote selection (`select_best`) -/

/-- Helper: the running maximum of a fold is at least its initial value. -/
theorem foldl_max_init_le (f : VenueQuote → ℚ) :
    ∀ (xs : List VenueQuote) (a : ℚ),
      a ≤ xs.foldl (fun m z => max m (f z)) a := by
  intro xs
  induction xs with
  | nil => intro a; exact le_refl a
  | cons y ys ih =>
    intro a
    calc a ≤ max a (f y) := le_max_left a (f y)
      _ ≤ ys.foldl (fun m z => max m (f z)) (max a (f y)) := ih (max a (f y))

/-- Helper: the running minimum of a fold is at most its initial value. -/
theorem foldl_min_le_init (f : VenueQuote → ℚ) :
    ∀ (xs : List VenueQuote) (a : ℚ),
      xs.foldl (fun m z => min m (f z)) a ≤ a := by
  intro xs
  induction xs with
  | nil => intro a; exact le_refl a
  | cons y ys ih =>
    intro a
    calc ys.foldl (fun m z => min m (f z)) (min a (f y)) ≤ min a (f y) :=
        ih (min a (f y))
      _ ≤ a := min_le_left a (f y)

/-- Helper: Python's `max(..., key=f)` fold keeps the *first* element
attaining the maximal key. -/
theorem find?_max_core (f : VenueQuote → ℚ) :
    ∀ (xs : List VenueQuote) (x : VenueQuote),
      (x :: xs).find?
          (fun y => decide (f y = xs.foldl (fun m z => max m (f z)) (f x))) =
        some (xs.foldl (fun acc y => if f acc < f y then y else acc) x) := by
  intro xs
  induction xs with
  | nil => intro x; simp [List.find?]
  | cons y ys ih =>
    intro x
    by_cases hxy : f x < f y
    · have hmax : max (f x) (f y) = f y := max_eq_right (le_of_lt hxy)
      have hfx : f x < ys.foldl (fun m z => max m (f z)) (f y) :=
        lt_of_lt_of_le hxy (foldl_max_init_le f ys (f y))
      have hM : (y :: ys).foldl (fun m z => max m (f z)) (f x) =
          ys.foldl (fun m z => max m (f z)) (f y) := by
        simp only [List.foldl_cons, hmax]
      simp only [hM]
      have hstep : (y :: ys).foldl (fun acc z => if f acc < f z then z else acc) x =
          ys.foldl (fun acc z => if f acc < f z then z else acc) y := by
        simp only [List.foldl_cons, if_pos hxy]
      rw [hstep]
      rw [List.find?_cons_of_neg _ (by simp [hfx.ne])]
      exact ih y
    · have hyx : f y ≤ f x := not_lt.mp hxy
      have hmax : max (f x) (f y) = f x := max_eq_left hyx
      have hM : (y :: ys).foldl (fun m z => max m (f z)) (f x) =
          ys.foldl (fun m z => max m (f z)) (f x) := by
        simp only [List.foldl_cons, hmax]
      simp only [hM]
      have hstep : (y :: ys).foldl (fun acc z => if f acc < f z then z else acc) x =
          ys.foldl (fun acc z => if f acc < f z then z else acc) x := by
        simp only [List.foldl_cons, if_neg hxy]
      rw [hstep]
      have ihx := ih x
      by_cases hpx : f x = ys.foldl (fun m z => max m (f z)) (f x)
      · rw [List.find?_cons_of_pos _ (by simp only [decide_eq_true_eq]; exact hpx)]
        rw [List.find?_cons_of_pos _ (by simp only [decide_eq_true_eq]; exact hpx)] at ihx
        exact ihx
      · have hfxle : f x ≤ ys.foldl (fun m z => max m (f z)) (f x) :=
          foldl_max_init_le f ys (f x)
        have hpy : ¬(f y = ys.foldl (fun m z => max m (f z)) (f x)) :=
          fun he => hpx (le_antisymm hfxle (he ▸ hyx))
        rw [List.find?_cons_of_neg _ (by simp [hpx]),
          List.find?_cons_of_neg _ (by simp [hpy])]
        rw [List.find?_cons_of_neg _ (by simp [hpx])] at ihx
        exact ihx

/-- Helper: Python's `min(..., key=f)` fold keeps the *first* element
attaining the minimal key. -/
theorem find?_min_core (f : VenueQuote → ℚ) :
    ∀ (xs : List VenueQuote) (x : VenueQuote),
      (x :: xs).find?
          (fun y => decide (f y = xs.foldl (fun m z => min m (f z)) (f x))) =
        some (xs.foldl (fun acc y => if f y < f acc then y else acc) x) := by
  intro xs
  induction xs with
  | nil => intro x; simp [List.find?]
  | cons y ys ih =>
    intro x
    by_cases hxy : f y < f x
    · have hmin : min (f x) (f y) = f y := min_eq_right (le_of_lt hxy)
      have hfx : ys.foldl (fun m z => min m (f z)) (f y) < f x :=
        lt_of_le_of_lt (foldl_min_le_init f ys (f y)) hxy
      have hM : (y :: ys).foldl (fun m z => min m (f z)) (f x) =
          ys.foldl (fun m z => min m (f z)) (f y) := by
        simp only [List.foldl_cons, hmin]
      simp only [hM]
      have hstep : (y :: ys).foldl (fun acc z => if f z < f acc then z else acc) x =
          ys.foldl (fun acc z => if f z < f acc then z else acc) y := by
        simp only [List.foldl_cons, if_pos hxy]
      rw [hstep]
      rw [List.find?_cons_of_neg _ (by simp [hfx.ne'])]
      exact ih y
    · have hyx : f x ≤ f y := not_lt.mp hxy
      have hmin : min (f x) (f y) = f x := min_eq_left hyx
      have hM : (y :: ys).foldl (fun m z => min m (f z)) (f x) =
          ys.foldl (fun m z => min m (f z)) (f x) := by
        simp only [List.foldl_cons, hmin]
      simp only [hM]
      have hstep : (y :: ys).foldl (fun acc z => if f z < f acc then z else acc) x =
          ys.foldl (fun acc z => if f z < f acc then z else acc) x := by
        simp only [List.foldl_cons, if_neg hxy]
      rw [hstep]
      have ihx := ih x
      by_cases hpx : f x = ys.foldl (fun m z => min m (f z)) (f x)
      · rw [List.find?_cons_of_pos _ (by simp only [decide_eq_true_eq]; exact hpx)]
        rw [List.find?_cons_of_pos _ (by simp only [decide_eq_true_eq]; exact hpx)] at ihx
        exact ihx
      · have hfxle : ys.foldl (fun m z => min m (f z)) (f x) ≤ f x :=
          foldl_min_le_init f ys (f x)
        have hpy : ¬(f y = ys.foldl (fun m z => min m (f z)) (f x)) :=
          fun he => hpx (le_antisymm (he ▸ hyx) hfxle)
        rw [List.find?_cons_of_neg _ (by simp [hpx]),
          List.find?_cons_of_neg _ (by simp [hpy])]
        rw [List.find?_cons_of_neg _ (by simp [hpx])] at ihx
        exact ihx

/-- Helper: `pyMaxBy` is the first argmax in list order. -/
theorem pyMaxBy_eq_firstArgmaxBy (f : VenueQuote → ℚ) (l : List VenueQuote) :
    pyMaxBy f l = firstArgmaxBy f l := by
  cases l with
  | nil => rfl
  | cons x xs => rw [pyMaxBy, firstArgmaxBy, find?_max_core f xs x]

/-- Helper: `pyMinBy` is the first argmin in list order. -/
theorem pyMinBy_eq_firstArgminBy (f : VenueQuote → ℚ) (l : List VenueQuote) :
    pyMinBy f l = firstArgminBy f l := by
  cases l with
  | nil => rfl
  | cons x xs => rw [pyMinBy, firstArgminBy, find?_min_core f xs x]

/-- Helper: `select_best` is componentwise the Python max/min fold. -/
theorem select_best_eq_pair (l : List VenueQuote) :
    select_best l =
      (pyMaxBy (fun vq => vq.quote.bid) l, pyMinBy (fun vq => vq.quote.ask) l) := by
  cases l with
  | nil => rfl
  | cons x xs => simp [select_best]

/-- C9: `select_best` returns `(None, None)` exactly on the empty quote
list; on any non-empty list it returns the first quote (in list order)
attaining the maximal bid and the first attaining the minimal ask — both
present, never exactly one `None` — so the aggregation's `mid` is
defined whenever at least one venue returned a quote. -/
theorem select_best_first_extremes (l : List VenueQuote)
    (outcomes : List FetchOutcome) :
    (select_best l = (none, none) ↔ l = []) ∧
    (select_best l).1 = firstArgmaxBy (fun vq => vq.quote.bid) l ∧
    (select_best l).2 = firstArgminBy (fun vq => vq.quote.ask) l ∧
    (l ≠ [] → (select_best l).1.isSome = true ∧ (select_best l).2.isSome = true) ∧
    (gather_quotes outcomes ≠ [] →
      (best_across_venues outcomes).mid.isSome = true) := by
  refine ⟨?_, ?_, ?_, ?_, ?_⟩
  · cases l with
    | nil => simp [select_best]
    | cons x xs => simp [select_best, pyMaxBy, pyMinBy]
  · rw [select_best_eq_pair, pyMaxBy_eq_firstArgmaxBy]
  · rw [select_best_eq_pair, pyMinBy_eq_firstArgminBy]
  · intro hne
    cases l with
    | nil => exact absurd rfl hne
    | cons x xs => simp [select_best, pyMaxBy, pyMinBy]
  · intro hne
    cases hg : gather_quotes outcomes with
    | nil => exact absurd hg hne
    | cons x xs =>
      simp [best_across_venues, hg, select_best, pyMaxBy, pyMinBy]

/-- C9 witness: the statement at a concrete two-venue quote list (a bid
tie broken by list order) and a concrete one-venue outcome list. -/
theorem select_best_first_extremes_witness :
    (select_best [⟨"A", ⟨100, 101, 1⟩⟩, ⟨"B", ⟨100, 102, 2⟩⟩] = (none, none) ↔
      ([⟨"A", ⟨100, 101, 1⟩⟩, ⟨"B", ⟨100, 102, 2⟩⟩] : List VenueQuote) = []) ∧
    (select_best [⟨"A", ⟨100, 101, 1⟩⟩, ⟨"B", ⟨100, 102, 2⟩⟩]).1 =
      firstArgmaxBy (fun vq => vq.quote.bid)
        [⟨"A", ⟨100, 101, 1⟩⟩, ⟨"B", ⟨100, 102, 2⟩⟩] ∧
    (select_best [⟨"A", ⟨100, 101, 1⟩⟩, ⟨"B", ⟨100, 102, 2⟩⟩]).2 =
      firstArgminBy (fun vq => vq.quote.ask)
        [⟨"A", ⟨100, 101, 1⟩⟩, ⟨"B", ⟨100, 102, 2⟩⟩] ∧
    (([⟨"A", ⟨100, 101, 1⟩⟩, ⟨"B", ⟨100, 102, 2⟩⟩] : List VenueQuote) ≠ [] →
      (select_best [⟨"A", ⟨100, 101, 1⟩⟩, ⟨"B", ⟨100, 102, 2⟩⟩]).1.isSome = true ∧
      (select_best [⟨"A", ⟨100, 101, 1⟩⟩, ⟨"B", ⟨100, 102, 2⟩⟩]).2.isSome = true) ∧
    (gather_quotes [("A", Except.ok ⟨100, 101, 1⟩)] ≠ [] →
      (best_across_venues [("A", Except.ok ⟨100, 101, 1⟩)]).mid.isSome = true) :=
  select_best_first_extremes [⟨"A", ⟨100, 101, 1⟩⟩, ⟨"B", ⟨100, 102, 2⟩⟩]
    [("A", Except.ok ⟨100, 101, 1⟩)]

/-- C3 witness: the amended statement evaluated on a concrete book with
one bid level and an empty ask side. -/
theorem best_bid_ask_nan_signal_witness :
    ((⟨[⟨99, 1⟩], [], 7⟩ : OrderBook).best_bid = pyNaN ↔
      (⟨[⟨99, 1⟩], [], 7⟩ : OrderBook).bids = []) ∧
    ((⟨[⟨99, 1⟩], [], 7⟩ : OrderBook).best_ask = pyNaN ↔
      (⟨[⟨99, 1⟩], [], 7⟩ : OrderBook).asks = []) ∧
    ((⟨[⟨99, 1⟩], [], 7⟩ : OrderBook).mid = pyNaN ↔
      ((⟨[⟨99, 1⟩], [], 7⟩ : OrderBook).bids = [] ∨
        (⟨[⟨99, 1⟩], [], 7⟩ : OrderBook).asks = [])) ∧
    (∀ q : ℚ, pyNaN ≠ some q) :=
  best_bid_ask_nan_signal ⟨[⟨99, 1⟩], [], 7⟩

end Xetrade
